import Mathlib

/-!
Shallow embedding of `src/background_remover.cc` (wertarbyte/bgremover).

The program segments a camera frame into person/background using a
TensorFlow-Lite model and replaces the background pixels with a replacement
image.  We embed the pure computational content of the C++ source:

* the constructor's tensor-geometry validation (`BackgroundRemover::BackgroundRemover`),
* the per-model input normalization (`BackgroundRemover::makeInputTensor`),
* the debug range assertion (`checkValuesInRange`),
* the output-buffer decode into a binary mask (`BackgroundRemover::getMaskFromOutput`),
* the compositing loop and its size guard (`BackgroundRemover::maskBackground`).

Machine floats are embedded as exact rationals (`ℚ`); `CHECK`-style fatal
errors become `Option`/`Except` failure values; the opaque external
collaborators (TFLite inference, OpenCV `cv::resize`) are passed in as
function parameters.  Images are width/height plus a pixel function; tensor
buffers are flat row-major `List ℚ`, exactly as the C++ walks raw memory.
-/

namespace BGRemover

/-- `BackgroundRemover::ModelType` from the header: the closed model-kind
enumeration, with `Undefined` for an unrecognized name. -/
inductive ModelType where
  | DeeplabV3
  | BodypixResnet
  | BodypixMobilenet
  | Undefined
deriving DecidableEq, Repr

/-- `BackgroundRemover::parseModelType`: maps the configuration string to the
enumeration, anything unrecognized to `Undefined`. -/
def parseModelType (model_type : String) : ModelType :=
  if model_type = "deeplabv3" then ModelType.DeeplabV3
  else if model_type = "bodypix_resnet" then ModelType.BodypixResnet
  else if model_type = "bodypix_mobilenet" then ModelType.BodypixMobilenet
  else ModelType.Undefined

/-- `deeplabv3_label_count`: the 21 entries of `deeplabv3_label_names`
("background" … "tv"). -/
def deeplabv3_label_count : Nat := 21

/-- `person_label = 15`: index of "person" in `deeplabv3_label_names`. -/
def person_label : Nat := 15

/-- `threshold = .5` in `getMaskFromOutput`. -/
def threshold : ℚ := 0.5

/-- The four dimensions of a TFLite tensor as reported by
`TfLiteTensorDim(t, 0..3)`.  The source's `CHECK_EQ(TfLiteTensorNumDims(t), 4)`
is modelled by this record having exactly four fields. -/
structure TensorDims where
  d0 : Nat
  d1 : Nat
  d2 : Nat
  d3 : Nat
deriving DecidableEq, Repr

/-- The state a successfully constructed `BackgroundRemover` carries that the
pure pipeline reads: the model kind and the discovered `width_`, `height_`,
`stride_`. -/
structure BackgroundRemover where
  model_type : ModelType
  width : Nat
  height : Nat
  stride : Nat
deriving DecidableEq, Repr

/-- The validation sequence of `BackgroundRemover::BackgroundRemover`
(lines 48–112): parse the model-type string, check float32 element types,
batch 1, 3 input channels, derive the stride from the output/input spatial
dims (equal horizontal and vertical ratio required), then enforce the
per-model-kind stride and channel contract.  Every `CHECK` failure is fatal,
embedded as `none`; success yields the adapter state. -/
def construct (model_type : String) (input_f32 : Bool) (input : TensorDims)
    (output_f32 : Bool) (output : TensorDims) : Option BackgroundRemover :=
  let mt := parseModelType model_type
  if mt = ModelType.Undefined then none
  else if ¬ input_f32 then none
  else if input.d0 ≠ 1 then none
  else if input.d3 ≠ 3 then none
  else if ¬ output_f32 then none
  else
    let w := input.d1
    let h := input.d2
    let outw := output.d1
    if w % outw ≠ 0 then none
    else
      let stride := w / outw
      let outh := output.d2
      if h % outh ≠ 0 then none
      else if h / outh ≠ stride then none
      else
        match mt with
        | ModelType.DeeplabV3 =>
            if stride = 1 ∧ output.d3 = deeplabv3_label_count then
              some ⟨mt, w, h, stride⟩
            else none
        | ModelType.BodypixResnet =>
            if (stride = 16 ∨ stride = 32) ∧ output.d3 = 1 then
              some ⟨mt, w, h, stride⟩
            else none
        | ModelType.BodypixMobilenet =>
            if (stride = 8 ∨ stride = 16) ∧ output.d3 = 1 then
              some ⟨mt, w, h, stride⟩
            else none
        | ModelType.Undefined => none

/-- A `cv::Vec3f` pixel: three float channels, embedded as rationals. -/
structure Vec3 where
  v0 : ℚ
  v1 : ℚ
  v2 : ℚ
deriving DecidableEq, Repr

/-- `minVec3f`: `std::min({v[0], v[1], v[2]})`. -/
def minVec3f (v : Vec3) : ℚ := min v.v0 (min v.v1 v.v2)

/-- `maxVec3f`: `std::max({v[0], v[1], v[2]})`. -/
def maxVec3f (v : Vec3) : ℚ := max v.v0 (max v.v1 v.v2)

/-- One pixel of `cv::Mat::convertTo(ret, CV_32FC3, alpha, beta)`:
`out = in * alpha + beta` on each channel (the target type is float, so
OpenCV applies no saturation). -/
def convertToPixel (alpha beta : ℚ) (v : Vec3) : Vec3 :=
  ⟨v.v0 * alpha + beta, v.v1 * alpha + beta, v.v2 * alpha + beta⟩

/-- One pixel of the BodypixResnet branch:
`v += cv::Vec3f(-123.15, -115.90, -103.06)`. -/
def resnetMeanShift (v : Vec3) : Vec3 :=
  ⟨v.v0 + -123.15, v.v1 + -115.90, v.v2 + -103.06⟩

/-- `BackgroundRemover::makeInputTensor` (lines 128–150): per-model
normalization of the resized frame.  DeeplabV3 / BodypixMobilenet use
`convertTo(_, CV_32FC3, 1./255, -.5)`; BodypixResnet converts to float and
subtracts the per-channel mean; the `default: CHECK(0)` branch is fatal. -/
def makeInputTensor (mt : ModelType) (img : List Vec3) : Option (List Vec3) :=
  match mt with
  | ModelType.DeeplabV3 => some (img.map (convertToPixel (1/255) (-(1/2))))
  | ModelType.BodypixMobilenet => some (img.map (convertToPixel (1/255) (-(1/2))))
  | ModelType.BodypixResnet => some (img.map resnetMeanShift)
  | ModelType.Undefined => none

/-- One step of the `std::minmax_element` scan with comparator
`comp a b = minVec3f a < minVec3f b`: keep the first minimal element and the
last maximal element seen so far. -/
def minmaxStep (p : Vec3 × Vec3) (v : Vec3) : Vec3 × Vec3 :=
  (if minVec3f v < minVec3f p.1 then v else p.1,
   if minVec3f p.2 < minVec3f v then v else p.2)

/-- The `std::minmax_element(…, comp)` call in `checkValuesInRange`, with
`comp a b = minVec3f a < minVec3f b`: scans the buffer keeping the first
element minimal under `comp` and the last element maximal under `comp`.
`none` on an empty buffer (where the C++ iterators could not be
dereferenced). -/
def selMinmax (mat : List Vec3) : Option (Vec3 × Vec3) :=
  match mat with
  | [] => none
  | x :: xs => some (xs.foldl minmaxStep (x, x))

/-- `checkValuesInRange` (lines 118–126): the debug-only assertion
`CHECK_GE(minVec3f(*matmin), min)` and `CHECK_LE(maxVec3f(*matmax), max)`
over the minmax elements selected by `selMinmax`; `true` means the checks
pass. -/
def checkValuesInRange (mat : List Vec3) (lo hi : ℚ) : Bool :=
  match selMinmax mat with
  | none => true
  | some p => decide (lo ≤ minVec3f p.1) && decide (maxVec3f p.2 ≤ hi)

/-- The lower range bound `makeInputTensor` passes to `checkValuesInRange`
for each model kind (`-.5` for DeeplabV3/BodypixMobilenet, `-127.` for
BodypixResnet; the `Undefined` branch never reaches the check). -/
def expectedLo : ModelType → ℚ
  | ModelType.DeeplabV3 => -(1/2)
  | ModelType.BodypixMobilenet => -(1/2)
  | ModelType.BodypixResnet => -127
  | ModelType.Undefined => 0

/-- The upper range bound `makeInputTensor` passes to `checkValuesInRange`
for each model kind (`.5` for DeeplabV3/BodypixMobilenet, `255.` for
BodypixResnet). -/
def expectedHi : ModelType → ℚ
  | ModelType.DeeplabV3 => 1/2
  | ModelType.BodypixMobilenet => 1/2
  | ModelType.BodypixResnet => 255
  | ModelType.Undefined => 0

/-- The scan of `std::max_element(l, l + n)`: walks the remaining elements
`xs` starting at index `i`, keeping the index `best` (value `bestv`) of the
current maximum and replacing it only on a strictly greater element — so the
result is the first occurrence of the maximum. -/
def maxElemAux (best : Nat) (bestv : ℚ) (i : Nat) : List ℚ → Nat
  | [] => best
  | x :: xs => if bestv < x then maxElemAux i x (i + 1) xs else maxElemAux best bestv (i + 1) xs

/-- `label = std::max_element(l, l + deeplabv3_label_count) - l`: the index of
the first maximal score of a cell's score vector (0 on an empty vector, which
the decode never produces). -/
def maxElementIdx : List ℚ → Nat
  | [] => 0
  | x :: xs => maxElemAux 0 x 1 xs

/-- The 21 class scores of cell `p` inside the flat DeeplabV3 output buffer:
`labels[p]` where `labels = (DeeplabV3Labels *)data`. -/
def cellScores (buf : List ℚ) (p : Nat) : List ℚ :=
  (buf.drop (p * deeplabv3_label_count)).take deeplabv3_label_count

/-- The DeeplabV3 per-cell condition of `getMaskFromOutput`: the cell is
marked background (written 1) iff the arg-max label differs from
`person_label`. -/
def deeplabCellIsBackground (buf : List ℚ) (p : Nat) : Bool :=
  maxElementIdx (cellScores buf p) ≠ person_label

/-- The Bodypix per-cell condition of `getMaskFromOutput`: the cell is marked
background (written 1) iff the stored probability is strictly below
`threshold`. -/
def thresholdCellIsBackground (buf : List ℚ) (p : Nat) : Bool :=
  buf.getD p 0 < threshold

/-- One iteration of the decode loop body: write 1 into mask cell `p` when
the per-cell condition holds, else leave the mask alone. -/
def decodeStep (cond : Nat → Bool) (m : List Nat) (p : Nat) : List Nat :=
  if cond p then m.set p 1 else m

/-- The write pattern of `getMaskFromOutput`: start from
`cv::Mat::zeros(maskw, maskh)` and, for each flat cell index `p` (row-major
`y*maskw + x`, which the source reconstructs as
`Point(pixel % maskw, pixel / maskw)`), write 1 into cell `p` exactly when
the per-cell condition holds; nothing else is ever written. -/
def decodeFold (cond : Nat → Bool) (n : Nat) : List Nat :=
  (List.range n).foldl (decodeStep cond) (List.replicate n 0)

/-- `maskw = width_ / stride_`. -/
def maskWidth (a : BackgroundRemover) : Nat := a.width / a.stride

/-- `maskh = height_ / stride_`. -/
def maskHeight (a : BackgroundRemover) : Nat := a.height / a.stride

/-- `BackgroundRemover::getMaskFromOutput` (lines 152–188): checks the output
buffer size against the expected element count (`CHECK_EQ(size, …)`, a fatal
error embedded as `none`), then decodes each cell with the arg-max rule
(DeeplabV3) or the threshold rule (Bodypix) into a zero-initialized mask. -/
def getMaskFromOutput (a : BackgroundRemover) (buf : List ℚ) : Option (List Nat) :=
  let n := maskWidth a * maskHeight a
  if a.model_type = ModelType.DeeplabV3 then
    if buf.length = n * deeplabv3_label_count then
      some (decodeFold (deeplabCellIsBackground buf) n)
    else none
  else
    if buf.length = n then
      some (decodeFold (thresholdCellIsBackground buf) n)
    else none

/-- An 8-bit BGR pixel (`cv::Vec3b`). -/
structure Vec3b where
  b0 : Nat
  b1 : Nat
  b2 : Nat
deriving DecidableEq, Repr

/-- A full-resolution `cv::Mat` frame: dimensions plus a pixel lookup
(`frame.at<cv::Vec3b>(cv::Point(x, y))`). -/
structure Image where
  width : Nat
  height : Nat
  pix : Nat → Nat → Vec3b

/-- The compositing loop of `maskBackground` (lines 212–215): for every
coordinate `(x, y)` inside the frame, overwrite the frame pixel with the
replacement pixel whenever the upscaled mask value at `(x, y)` is nonzero;
all other pixels keep their original value. -/
def composite (frame maskImage : Image) (mask : Nat → Nat → Nat) : Image :=
  { width := frame.width
    height := frame.height
    pix := fun x y =>
      if x < frame.width ∧ y < frame.height ∧ mask x y ≠ 0 then maskImage.pix x y
      else frame.pix x y }

/-- `BackgroundRemover::maskBackground` (lines 190–218): the per-frame entry
point.  The first statement is the size guard `CHECK_EQ(frame.size,
maskImage.size)`; on mismatch the fatal error fires before anything touches
the frame, embedded as `Except.error ()` with no output frame produced.
Otherwise the frame is resized to model resolution (`resize`, the opaque
`cv::resize` collaborator), normalized, run through inference (`infer`, the
opaque TFLite collaborator), decoded into a mask, upscaled back to frame
resolution (`upscale`), and composited. -/
def maskBackground (a : BackgroundRemover)
    (resize : Image → Nat → Nat → List Vec3)
    (infer : List Vec3 → List ℚ)
    (upscale : List Nat → Nat → Nat → Nat → Nat → Nat)
    (frame maskImage : Image) : Except Unit Image :=
  if frame.width = maskImage.width ∧ frame.height = maskImage.height then
    let small := resize frame a.width a.height
    match makeInputTensor a.model_type small with
    | none => Except.error ()
    | some input_float =>
        let outBuf := infer input_float
        match getMaskFromOutput a outBuf with
        | none => Except.error ()
        | some mask =>
            Except.ok (composite frame maskImage (upscale mask frame.width frame.height))
  else Except.error ()

/-! ### Helper lemmas about the decode fold -/

theorem getD_set_ne {l : List Nat} {q j : Nat} (h : q ≠ j) (v d : Nat) :
    (l.set q v).getD j d = l.getD j d := by
  simp [List.getD, List.getElem?_set_ne h]

theorem getD_set_self {l : List Nat} {j : Nat} (h : j < l.length) (v d : Nat) :
    (l.set j v).getD j d = v := by
  simp [List.getD, List.getElem?_set_eq_of_lt v h]

theorem length_foldl_decodeStep (cond : Nat → Bool) :
    ∀ (l : List Nat) (init : List Nat),
      (l.foldl (decodeStep cond) init).length = init.length := by
  intro l
  induction l with
  | nil => intro init; rfl
  | cons q l ih =>
      intro init
      rw [List.foldl_cons, ih]
      unfold decodeStep
      split <;> simp

theorem foldl_decodeStep_getD_not_mem (cond : Nat → Bool) :
    ∀ (l : List Nat) (init : List Nat) (j : Nat), j ∉ l →
      (l.foldl (decodeStep cond) init).getD j 0 = init.getD j 0 := by
  intro l
  induction l with
  | nil => intro init j _; rfl
  | cons q l ih =>
      intro init j hj
      have hqj : q ≠ j := fun h => hj (h ▸ List.mem_cons_self q l)
      have hjl : j ∉ l := fun h => hj (List.mem_cons_of_mem q h)
      rw [List.foldl_cons, ih _ j hjl]
      unfold decodeStep
      split
      · exact getD_set_ne hqj 1 0
      · rfl

theorem foldl_decodeStep_getD_mem (cond : Nat → Bool) :
    ∀ (l : List Nat) (init : List Nat) (p : Nat), l.Nodup → p ∈ l → p < init.length →
      (l.foldl (decodeStep cond) init).getD p 0 = if cond p then 1 else init.getD p 0 := by
  intro l
  induction l with
  | nil => intro init p _ hp; exact absurd hp (List.not_mem_nil p)
  | cons q l ih =>
      intro init p hnd hp hlen
      have hql : q ∉ l := (List.nodup_cons.mp hnd).1
      have hndl : l.Nodup := (List.nodup_cons.mp hnd).2
      rw [List.foldl_cons]
      rcases List.mem_cons.mp hp with hpq | hpl
      · subst hpq
        rw [foldl_decodeStep_getD_not_mem cond l _ p hql]
        unfold decodeStep
        split
        · exact getD_set_self hlen 1 0
        · rfl
      · have hpq : p ≠ q := fun h => hql (h ▸ hpl)
        have hlen' : p < (decodeStep cond init q).length := by
          unfold decodeStep; split <;> simpa using hlen
        rw [ih _ p hndl hpl hlen']
        have hstep : (decodeStep cond init q).getD p 0 = init.getD p 0 := by
          unfold decodeStep
          split
          · exact getD_set_ne (Ne.symm hpq) 1 0
          · rfl
        rw [hstep]

theorem length_decodeFold (cond : Nat → Bool) (n : Nat) :
    (decodeFold cond n).length = n := by
  rw [decodeFold, length_foldl_decodeStep, List.length_replicate]

theorem decodeFold_getD (cond : Nat → Bool) (n p : Nat) (hp : p < n) :
    (decodeFold cond n).getD p 0 = if cond p then 1 else 0 := by
  rw [decodeFold,
    foldl_decodeStep_getD_mem cond (List.range n) (List.replicate n 0) p
      (List.nodup_range n) (List.mem_range.mpr hp) (by simpa using hp)]
  congr 1
  rw [List.getD_eq_getElem _ 0 (by simpa using hp), List.getElem_replicate]

theorem foldl_decodeStep_mem (cond : Nat → Bool) :
    ∀ (l : List Nat) (init : List Nat), (∀ v ∈ init, v = 0 ∨ v = 1) →
      ∀ v ∈ l.foldl (decodeStep cond) init, v = 0 ∨ v = 1 := by
  intro l
  induction l with
  | nil => intro init h; exact h
  | cons q l ih =>
      intro init h
      rw [List.foldl_cons]
      refine ih _ ?_
      intro v hv
      unfold decodeStep at hv
      split at hv
      · rcases List.mem_or_eq_of_mem_set hv with h1 | h1
        · exact h v h1
        · exact Or.inr h1
      · exact h v hv

theorem decodeFold_mem (cond : Nat → Bool) (n : Nat) :
    ∀ v ∈ decodeFold cond n, v = 0 ∨ v = 1 := by
  refine foldl_decodeStep_mem cond (List.range n) (List.replicate n 0) ?_
  intro v hv
  exact Or.inl (List.eq_of_mem_replicate hv)

/-! ### Characterization of `maxElemAux` / `maxElementIdx` as a
first-occurrence arg-max -/

theorem maxElemAux_spec :
    ∀ (xs : List ℚ) (best : Nat) (bestv : ℚ) (i : Nat),
      ((∀ j < xs.length, xs.getD j 0 ≤ bestv) ∧ maxElemAux best bestv i xs = best)
      ∨ (∃ j, j < xs.length ∧ maxElemAux best bestv i xs = i + j ∧ bestv < xs.getD j 0 ∧
          (∀ k < xs.length, xs.getD k 0 ≤ xs.getD j 0) ∧
          (∀ k < j, xs.getD k 0 < xs.getD j 0)) := by
  intro xs
  induction xs with
  | nil =>
      intro best bestv i
      left
      exact ⟨fun j hj => absurd hj (Nat.not_lt_zero j), rfl⟩
  | cons x xs ih =>
      intro best bestv i
      by_cases hbx : bestv < x
      · rw [maxElemAux, if_pos hbx]
        rcases ih i x (i + 1) with ⟨hall, heq⟩ | ⟨j, hj, heq, hlt, hmax, hpre⟩
        · right
          refine ⟨0, Nat.succ_pos _, by omega, hbx, ?_, ?_⟩
          · intro k hk
            cases k with
            | zero => simp
            | succ k =>
                simpa using hall k (by simpa using hk)
          · intro k hk; omega
        · right
          refine ⟨j + 1, by simpa using hj, by omega, ?_, ?_, ?_⟩
          · simpa using lt_trans hbx hlt
          · intro k hk
            cases k with
            | zero => simpa using le_of_lt hlt
            | succ k => simpa using hmax k (by simpa using hk)
          · intro k hk
            cases k with
            | zero => simpa using hlt
            | succ k => simpa using hpre k (by omega)
      · rw [maxElemAux, if_neg hbx]
        have hxb : x ≤ bestv := le_of_not_lt hbx
        rcases ih best bestv (i + 1) with ⟨hall, heq⟩ | ⟨j, hj, heq, hlt, hmax, hpre⟩
        · left
          refine ⟨?_, heq⟩
          intro j hj
          cases j with
          | zero => simpa using hxb
          | succ j => simpa using hall j (by simpa using hj)
        · right
          refine ⟨j + 1, by simpa using hj, by omega, by simpa using hlt, ?_, ?_⟩
          · intro k hk
            cases k with
            | zero => simpa using le_trans hxb (le_of_lt hlt)
            | succ k => simpa using hmax k (by simpa using hk)
          · intro k hk
            cases k with
            | zero => simpa using lt_of_le_of_lt hxb hlt
            | succ k => simpa using hpre k (by omega)

theorem maxElementIdx_spec (l : List ℚ) (hne : l ≠ []) :
    maxElementIdx l < l.length ∧
    (∀ j < l.length, l.getD j 0 ≤ l.getD (maxElementIdx l) 0) ∧
    (∀ j < maxElementIdx l, l.getD j 0 < l.getD (maxElementIdx l) 0) := by
  cases l with
  | nil => exact absurd rfl hne
  | cons x xs =>
      rw [maxElementIdx]
      rcases maxElemAux_spec xs 0 x 1 with ⟨hall, heq⟩ | ⟨j, hj, heq, hlt, hmax, hpre⟩
      · rw [heq]
        refine ⟨Nat.succ_pos _, ?_, ?_⟩
        · intro j hj
          cases j with
          | zero => simp
          | succ j => simpa using hall j (by simpa using hj)
        · intro j hj; omega
      · rw [heq]
        have h1j : 1 + j = j + 1 := by omega
        rw [h1j]
        refine ⟨by simpa using hj, ?_, ?_⟩
        · intro k hk
          cases k with
          | zero => simpa using le_of_lt hlt
          | succ k => simpa using hmax k (by simpa using hk)
        · intro k hk
          cases k with
          | zero => simpa using hlt
          | succ k => simpa using hpre k (by omega)

theorem maxElementIdx_eq_of_unique (l : List ℚ) (k : Nat) (hk : k < l.length)
    (huniq : ∀ j < l.length, j ≠ k → l.getD j 0 < l.getD k 0) :
    maxElementIdx l = k := by
  have hne : l ≠ [] := by
    intro h; rw [h] at hk; exact absurd hk (Nat.not_lt_zero k)
  obtain ⟨hlen, hmax, _⟩ := maxElementIdx_spec l hne
  by_contra hne2
  exact absurd (hmax k hk) (not_le_of_lt (huniq (maxElementIdx l) hlen hne2))

theorem cellScores_length (a : BackgroundRemover) (buf : List ℚ) (p : Nat)
    (hlen : buf.length = maskWidth a * maskHeight a * deeplabv3_label_count)
    (hp : p < maskWidth a * maskHeight a) :
    (cellScores buf p).length = deeplabv3_label_count := by
  rw [cellScores, List.length_take, List.length_drop, hlen]
  have h1 : (p + 1) * deeplabv3_label_count ≤
      maskWidth a * maskHeight a * deeplabv3_label_count :=
    Nat.mul_le_mul_right _ hp
  simp only [deeplabv3_label_count] at h1 ⊢
  omega

/-- C1: DeepLabV3 decode.  For every output buffer accepted by the size check
and every flat cell index `p = y*maskWidth + x`, the decoded mask cell is 0
when the first-occurrence arg-max over the cell's 21 class scores is class
index 15 ("person") and 1 otherwise.  The conjuncts also establish that the
selected index is a genuine arg-max with ties resolved by first occurrence
(every score is ≤ the selected one, and every earlier score is strictly
smaller), and that a cell whose class-15 score is the unique maximum decodes
to 0. -/
theorem deeplab_decode_spec (a : BackgroundRemover) (buf : List ℚ) (mask : List Nat) (p : Nat)
    (hmt : a.model_type = ModelType.DeeplabV3)
    (hm : getMaskFromOutput a buf = some mask)
    (hp : p < maskWidth a * maskHeight a) :
    (mask.getD p 0 = if maxElementIdx (cellScores buf p) = person_label then 0 else 1)
    ∧ maxElementIdx (cellScores buf p) < deeplabv3_label_count
    ∧ (∀ j < deeplabv3_label_count,
        (cellScores buf p).getD j 0 ≤
          (cellScores buf p).getD (maxElementIdx (cellScores buf p)) 0)
    ∧ (∀ j < maxElementIdx (cellScores buf p),
        (cellScores buf p).getD j 0 <
          (cellScores buf p).getD (maxElementIdx (cellScores buf p)) 0)
    ∧ ((∀ j < deeplabv3_label_count, j ≠ person_label →
          (cellScores buf p).getD j 0 < (cellScores buf p).getD person_label 0) →
        mask.getD p 0 = 0) := by
  rw [getMaskFromOutput, if_pos hmt] at hm
  split at hm
  case isFalse => exact absurd hm (Option.noConfusion)
  case isTrue hlen =>
  have hmask : mask = decodeFold (deeplabCellIsBackground buf) (maskWidth a * maskHeight a) :=
    (Option.some_inj.mp hm).symm
  have hgd : mask.getD p 0 = if deeplabCellIsBackground buf p then 1 else 0 := by
    rw [hmask]; exact decodeFold_getD _ _ p hp
  have hsl : (cellScores buf p).length = deeplabv3_label_count :=
    cellScores_length a buf p hlen hp
  have hne : cellScores buf p ≠ [] := by
    intro h
    rw [h] at hsl
    exact absurd hsl.symm (by decide)
  obtain ⟨hidx, hmax, hpre⟩ := maxElementIdx_spec (cellScores buf p) hne
  rw [hsl] at hidx hmax
  have hdecode :
      mask.getD p 0 = if maxElementIdx (cellScores buf p) = person_label then 0 else 1 := by
    rw [hgd, deeplabCellIsBackground]
    by_cases h : maxElementIdx (cellScores buf p) = person_label
    · simp [h]
    · simp [h]
  refine ⟨hdecode, hidx, hmax, hpre, ?_⟩
  intro huniq
  have h15 : maxElementIdx (cellScores buf p) = person_label := by
    refine maxElementIdx_eq_of_unique (cellScores buf p) person_label ?_ ?_
    · rw [hsl]; decide
    · rw [hsl]; exact huniq
  rw [hdecode, if_pos h15]

/-- Witness for C1: a 1×1-mask DeepLabV3 adapter and a 21-score buffer whose
person score is the unique maximum; the decoded cell is 0. -/
theorem deeplab_decode_spec_witness :
    ([0] : List Nat).getD 0 0 =
      if maxElementIdx (cellScores ((List.range 21).map fun i =>
        if i = 15 then (1 : ℚ) else 0) 0) = person_label then 0 else 1 :=
  (deeplab_decode_spec ⟨ModelType.DeeplabV3, 1, 1, 1⟩
    ((List.range 21).map fun i => if i = 15 then (1 : ℚ) else 0) [0] 0
    rfl (by decide) (by decide)).1

/-- C2: Threshold decode (BodyPixResNet / BodyPixMobileNet).  For every
output buffer accepted by the size check and every cell `p`, the decoded
mask cell is 1 exactly when the stored probability is strictly below the 0.5
threshold, and 0 otherwise. -/
theorem threshold_decode_spec (a : BackgroundRemover) (buf : List ℚ) (mask : List Nat) (p : Nat)
    (hmt : a.model_type = ModelType.BodypixResnet ∨ a.model_type = ModelType.BodypixMobilenet)
    (hm : getMaskFromOutput a buf = some mask)
    (hp : p < maskWidth a * maskHeight a) :
    mask.getD p 0 = if buf.getD p 0 < threshold then 1 else 0 := by
  have hne : a.model_type ≠ ModelType.DeeplabV3 := by
    rcases hmt with h | h <;> rw [h] <;> intro hc <;> exact ModelType.noConfusion hc
  rw [getMaskFromOutput, if_neg hne] at hm
  split at hm
  case isFalse => exact absurd hm (Option.noConfusion)
  case isTrue hlen =>
  have hmask : mask = decodeFold (thresholdCellIsBackground buf) (maskWidth a * maskHeight a) :=
    (Option.some_inj.mp hm).symm
  rw [hmask, decodeFold_getD _ _ p hp, thresholdCellIsBackground]
  by_cases h : buf.getD p 0 < threshold
  · simp [h]
  · simp [h]

/-- Witness for C2: a BodyPixResNet adapter with a 3×1 mask and the buffer
`[0.5, 0.4999, 0.5001]`: exactly 0.5 decodes to 0, 0.4999 to 1, 0.5001
to 0. -/
theorem threshold_decode_spec_witness :
    (([0, 1, 0] : List Nat).getD 0 0 =
      if (([0.5, 0.4999, 0.5001] : List ℚ).getD 0 0) < threshold then 1 else 0)
    ∧ (([0, 1, 0] : List Nat).getD 1 0 =
      if (([0.5, 0.4999, 0.5001] : List ℚ).getD 1 0) < threshold then 1 else 0)
    ∧ (([0, 1, 0] : List Nat).getD 2 0 =
      if (([0.5, 0.4999, 0.5001] : List ℚ).getD 2 0) < threshold then 1 else 0) := by
  have hm : getMaskFromOutput ⟨ModelType.BodypixResnet, 48, 16, 16⟩
      [0.5, 0.4999, 0.5001] = some [0, 1, 0] := by
    norm_num [getMaskFromOutput, maskWidth, maskHeight, decodeFold, decodeStep,
      thresholdCellIsBackground, threshold, List.range_succ, List.getD]
    decide
  exact
    ⟨threshold_decode_spec ⟨ModelType.BodypixResnet, 48, 16, 16⟩
        [0.5, 0.4999, 0.5001] [0, 1, 0] 0 (Or.inl rfl) hm (by decide),
     threshold_decode_spec ⟨ModelType.BodypixResnet, 48, 16, 16⟩
        [0.5, 0.4999, 0.5001] [0, 1, 0] 1 (Or.inl rfl) hm (by decide),
     threshold_decode_spec ⟨ModelType.BodypixResnet, 48, 16, 16⟩
        [0.5, 0.4999, 0.5001] [0, 1, 0] 2 (Or.inl rfl) hm (by decide)⟩

/-! ### Constructor validation -/

theorem construct_some_elim (name : String) (input_f32 : Bool) (input : TensorDims)
    (output_f32 : Bool) (output : TensorDims) (a : BackgroundRemover)
    (h : construct name input_f32 input output_f32 output = some a) :
    a.model_type = parseModelType name ∧
    a.width = input.d1 ∧ a.height = input.d2 ∧
    input.d1 % output.d1 = 0 ∧ a.stride = input.d1 / output.d1 ∧
    input.d2 % output.d2 = 0 ∧ input.d2 / output.d2 = a.stride ∧
    ((a.model_type = ModelType.DeeplabV3 ∧ a.stride = 1 ∧
        output.d3 = deeplabv3_label_count) ∨
     (a.model_type = ModelType.BodypixResnet ∧ (a.stride = 16 ∨ a.stride = 32) ∧
        output.d3 = 1) ∨
     (a.model_type = ModelType.BodypixMobilenet ∧ (a.stride = 8 ∨ a.stride = 16) ∧
        output.d3 = 1)) := by
  simp only [construct] at h
  split at h
  · exact Option.noConfusion h
  split at h
  · exact Option.noConfusion h
  split at h
  · exact Option.noConfusion h
  split at h
  · exact Option.noConfusion h
  split at h
  · exact Option.noConfusion h
  split at h
  · exact Option.noConfusion h
  rename_i hw
  split at h
  · exact Option.noConfusion h
  rename_i hh
  split at h
  · exact Option.noConfusion h
  rename_i hvh
  split at h
  case h_4 => exact Option.noConfusion h
  case h_1 heq =>
    split at h
    case isFalse => exact Option.noConfusion h
    case isTrue hc =>
      injection h with h2
      subst h2
      exact ⟨rfl, rfl, rfl, not_not.mp hw, rfl, not_not.mp hh, not_not.mp hvh,
        Or.inl ⟨heq, hc.1, hc.2⟩⟩
  case h_2 heq =>
    split at h
    case isFalse => exact Option.noConfusion h
    case isTrue hc =>
      injection h with h2
      subst h2
      exact ⟨rfl, rfl, rfl, not_not.mp hw, rfl, not_not.mp hh, not_not.mp hvh,
        Or.inr (Or.inl ⟨heq, hc.1, hc.2⟩)⟩
  case h_3 heq =>
    split at h
    case isFalse => exact Option.noConfusion h
    case isTrue hc =>
      injection h with h2
      subst h2
      exact ⟨rfl, rfl, rfl, not_not.mp hw, rfl, not_not.mp hh, not_not.mp hvh,
        Or.inr (Or.inr ⟨heq, hc.1, hc.2⟩)⟩

/-- C4: Constructor validation.  Every successfully constructed adapter
satisfies its model kind's stride/channel contract (DeeplabV3: stride 1 and
21 output channels; BodypixResnet: stride 16 or 32 and 1 channel;
BodypixMobilenet: stride 8 or 16 and 1 channel) — equivalently, a model
whose discovered stride or output channel count disagrees with the contract
makes every `CHECK` path fail construction (`construct` returns `none`)
before any frame is processed. -/
theorem construct_validates (name : String) (input_f32 : Bool) (input : TensorDims)
    (output_f32 : Bool) (output : TensorDims) (a : BackgroundRemover)
    (h : construct name input_f32 input output_f32 output = some a) :
    (a.model_type = ModelType.DeeplabV3 →
      a.stride = 1 ∧ output.d3 = deeplabv3_label_count) ∧
    (a.model_type = ModelType.BodypixResnet →
      (a.stride = 16 ∨ a.stride = 32) ∧ output.d3 = 1) ∧
    (a.model_type = ModelType.BodypixMobilenet →
      (a.stride = 8 ∨ a.stride = 16) ∧ output.d3 = 1) := by
  obtain ⟨-, -, -, -, -, -, -, hk⟩ :=
    construct_some_elim name input_f32 input output_f32 output a h
  rcases hk with ⟨hm, h1, h2⟩ | ⟨hm, h1, h2⟩ | ⟨hm, h1, h2⟩
  · refine ⟨fun _ => ⟨h1, h2⟩, fun hc => ?_, fun hc => ?_⟩ <;>
      (rw [hm] at hc; exact ModelType.noConfusion hc)
  · refine ⟨fun hc => ?_, fun _ => ⟨h1, h2⟩, fun hc => ?_⟩ <;>
      (rw [hm] at hc; exact ModelType.noConfusion hc)
  · refine ⟨fun hc => ?_, fun hc => ?_, fun _ => ⟨h1, h2⟩⟩ <;>
      (rw [hm] at hc; exact ModelType.noConfusion hc)

/-- Witness for C4: a DeepLabV3 model with stride 1 and 21 output channels
constructs successfully and satisfies the contract. -/
theorem construct_validates_witness :
    (⟨ModelType.DeeplabV3, 16, 16, 1⟩ : BackgroundRemover).stride = 1 ∧
      (⟨1, 16, 16, 21⟩ : TensorDims).d3 = deeplabv3_label_count :=
  (construct_validates "deeplabv3" true ⟨1, 16, 16, 3⟩ true ⟨1, 16, 16, 21⟩
    ⟨ModelType.DeeplabV3, 16, 16, 1⟩ (by decide)).1 rfl

/-- C5: Geometry invariant.  Every successfully constructed adapter has a
positive stride dividing both input dimensions, and the derived mask
resolution times the stride reproduces the input resolution exactly;
moreover a geometry whose vertical ratio differs from its horizontal ratio
is rejected at construction time (`construct` returns `none`), not per
frame. -/
theorem geometry_invariant (name : String) (input_f32 : Bool) (input : TensorDims)
    (output_f32 : Bool) (output : TensorDims) :
    (∀ a, construct name input_f32 input output_f32 output = some a →
      0 < a.stride ∧ a.width % a.stride = 0 ∧ a.height % a.stride = 0 ∧
      maskWidth a * a.stride = a.width ∧ maskHeight a * a.stride = a.height) ∧
    (input.d1 % output.d1 = 0 → input.d2 % output.d2 = 0 →
      input.d2 / output.d2 ≠ input.d1 / output.d1 →
      construct name input_f32 input output_f32 output = none) := by
  constructor
  · intro a h
    obtain ⟨-, hwdef, hhdef, hw, hs, hh, hvs, hk⟩ :=
      construct_some_elim name input_f32 input output_f32 output a h
    have hpos : 0 < a.stride := by
      rcases hk with ⟨-, h1, -⟩ | ⟨-, h1, -⟩ | ⟨-, h1, -⟩
      · rw [h1]; decide
      · rcases h1 with h1 | h1 <;> rw [h1] <;> decide
      · rcases h1 with h1 | h1 <;> rw [h1] <;> decide
    have hwidth : a.stride * output.d1 = a.width := by
      rw [hwdef, hs, Nat.div_mul_cancel (Nat.dvd_of_mod_eq_zero hw)]
    have hheight : a.stride * output.d2 = a.height := by
      rw [hhdef, ← hvs, Nat.div_mul_cancel (Nat.dvd_of_mod_eq_zero hh)]
    refine ⟨hpos, ?_, ?_, ?_, ?_⟩
    · rw [← hwidth]; exact Nat.mul_mod_right _ _
    · rw [← hheight]; exact Nat.mul_mod_right _ _
    · rw [maskWidth, ← hwidth, Nat.mul_div_cancel_left _ hpos, Nat.mul_comm]
    · rw [maskHeight, ← hheight, Nat.mul_div_cancel_left _ hpos, Nat.mul_comm]
  · intro h1 h2 h3
    simp only [construct]
    repeat' split
    all_goals simp_all

/-- Witness for C5: the invariant at a successfully constructed DeepLabV3
adapter, and rejection of a geometry whose vertical ratio (4) differs from
its horizontal ratio (2). -/
theorem geometry_invariant_witness :
    (0 < (⟨ModelType.DeeplabV3, 16, 16, 1⟩ : BackgroundRemover).stride ∧
      (⟨ModelType.DeeplabV3, 16, 16, 1⟩ : BackgroundRemover).width %
        (⟨ModelType.DeeplabV3, 16, 16, 1⟩ : BackgroundRemover).stride = 0 ∧
      (⟨ModelType.DeeplabV3, 16, 16, 1⟩ : BackgroundRemover).height %
        (⟨ModelType.DeeplabV3, 16, 16, 1⟩ : BackgroundRemover).stride = 0 ∧
      maskWidth ⟨ModelType.DeeplabV3, 16, 16, 1⟩ *
        (⟨ModelType.DeeplabV3, 16, 16, 1⟩ : BackgroundRemover).stride =
        (⟨ModelType.DeeplabV3, 16, 16, 1⟩ : BackgroundRemover).width ∧
      maskHeight ⟨ModelType.DeeplabV3, 16, 16, 1⟩ *
        (⟨ModelType.DeeplabV3, 16, 16, 1⟩ : BackgroundRemover).stride =
        (⟨ModelType.DeeplabV3, 16, 16, 1⟩ : BackgroundRemover).height) ∧
    construct "bodypix_resnet" true ⟨1, 16, 16, 3⟩ true ⟨1, 8, 4, 1⟩ = none :=
  ⟨(geometry_invariant "deeplabv3" true ⟨1, 16, 16, 3⟩ true ⟨1, 16, 16, 21⟩).1
      ⟨ModelType.DeeplabV3, 16, 16, 1⟩ (by decide),
   (geometry_invariant "bodypix_resnet" true ⟨1, 16, 16, 3⟩ true ⟨1, 8, 4, 1⟩).2
      (by decide) (by decide) (by decide)⟩

/-! ### Compositing -/

/-- C3: Compositing.  Inside the frame bounds, a mask value of 1 overwrites
the frame pixel with the replacement pixel at the same coordinate and a mask
value of 0 leaves it unchanged; consequently an all-1 mask makes the output
equal the replacement image pixel for pixel, and an all-0 mask leaves every
pixel of the frame equal to the original. -/
theorem composite_spec (frame maskImage : Image) (mask : Nat → Nat → Nat)
    (_hdim : frame.width = maskImage.width ∧ frame.height = maskImage.height) :
    (∀ x y, x < frame.width → y < frame.height →
      (mask x y = 1 → (composite frame maskImage mask).pix x y = maskImage.pix x y) ∧
      (mask x y = 0 → (composite frame maskImage mask).pix x y = frame.pix x y)) ∧
    ((∀ x y, x < frame.width → y < frame.height → mask x y = 1) →
      ∀ x y, x < frame.width → y < frame.height →
        (composite frame maskImage mask).pix x y = maskImage.pix x y) ∧
    ((∀ x y, x < frame.width → y < frame.height → mask x y = 0) →
      ∀ x y, (composite frame maskImage mask).pix x y = frame.pix x y) := by
  refine ⟨?_, ?_, ?_⟩
  · intro x y hx hy
    constructor
    · intro h1
      simp only [composite]
      rw [if_pos ⟨hx, hy, by rw [h1]; exact Nat.one_ne_zero⟩]
    · intro h0
      simp only [composite]
      rw [if_neg]
      rintro ⟨-, -, hnz⟩
      exact hnz h0
  · intro hall x y hx hy
    simp only [composite]
    rw [if_pos ⟨hx, hy, by rw [hall x y hx hy]; exact Nat.one_ne_zero⟩]
  · intro hall x y
    simp only [composite]
    split
    case isTrue hc => exact absurd (hall x y hc.1 hc.2.1) hc.2.2
    case isFalse => rfl

/-- Witness for C3: with an all-1 mask, pixel (0,0) of a 1×1 frame becomes
the replacement pixel. -/
theorem composite_spec_witness :
    (composite ⟨1, 1, fun _ _ => ⟨1, 2, 3⟩⟩ ⟨1, 1, fun _ _ => ⟨4, 5, 6⟩⟩
      fun _ _ => 1).pix 0 0 = (⟨1, 1, fun _ _ => ⟨4, 5, 6⟩⟩ : Image).pix 0 0 :=
  ((composite_spec ⟨1, 1, fun _ _ => ⟨1, 2, 3⟩⟩ ⟨1, 1, fun _ _ => ⟨4, 5, 6⟩⟩
      (fun _ _ => 1) ⟨rfl, rfl⟩).1 0 0 (by decide) (by decide)).1 rfl

/-! ### Normalization -/

/-- C6: Normalization formulas.  For every input image, DeepLabV3 and
BodyPixMobileNet normalize each channel to `input/255 − 0.5`, and
BodyPixResNet subtracts the per-channel mean `(123.15, 115.90, 103.06)` in
channel order. -/
theorem normalization_formulas (img : List Vec3) :
    makeInputTensor ModelType.DeeplabV3 img =
      some (img.map fun v =>
        ⟨v.v0 / 255 - 0.5, v.v1 / 255 - 0.5, v.v2 / 255 - 0.5⟩) ∧
    makeInputTensor ModelType.BodypixMobilenet img =
      some (img.map fun v =>
        ⟨v.v0 / 255 - 0.5, v.v1 / 255 - 0.5, v.v2 / 255 - 0.5⟩) ∧
    makeInputTensor ModelType.BodypixResnet img =
      some (img.map fun v =>
        ⟨v.v0 - 123.15, v.v1 - 115.90, v.v2 - 103.06⟩) := by
  have h1 : ∀ v : Vec3, convertToPixel (1/255) (-(1/2)) v =
      ⟨v.v0 / 255 - 0.5, v.v1 / 255 - 0.5, v.v2 / 255 - 0.5⟩ := by
    intro v
    simp only [convertToPixel, Vec3.mk.injEq]
    norm_num
    exact ⟨by ring, by ring, by ring⟩
  have h2 : ∀ v : Vec3, resnetMeanShift v =
      ⟨v.v0 - 123.15, v.v1 - 115.90, v.v2 - 103.06⟩ := by
    intro v
    simp only [resnetMeanShift, Vec3.mk.injEq, sub_eq_add_neg]
  simp only [makeInputTensor]
  exact ⟨congrArg some (List.map_congr_left fun v _ => h1 v),
    congrArg some (List.map_congr_left fun v _ => h1 v),
    congrArg some (List.map_congr_left fun v _ => h2 v)⟩

theorem foldl_minmaxStep_mem (S : List Vec3) :
    ∀ (xs : List Vec3) (p : Vec3 × Vec3), p.1 ∈ S → p.2 ∈ S → (∀ v ∈ xs, v ∈ S) →
      (xs.foldl minmaxStep p).1 ∈ S ∧ (xs.foldl minmaxStep p).2 ∈ S := by
  intro xs
  induction xs with
  | nil => intro p h1 h2 _; exact ⟨h1, h2⟩
  | cons v xs ih =>
      intro p h1 h2 hall
      rw [List.foldl_cons]
      refine ih _ ?_ ?_ fun w hw => hall w (List.mem_cons_of_mem v hw)
      · simp only [minmaxStep]
        split
        · exact hall v (List.mem_cons_self v xs)
        · exact h1
      · simp only [minmaxStep]
        split
        · exact hall v (List.mem_cons_self v xs)
        · exact h2

theorem selMinmax_mem (mat : List Vec3) (mn mx : Vec3)
    (h : selMinmax mat = some (mn, mx)) : mn ∈ mat ∧ mx ∈ mat := by
  cases mat with
  | nil => exact Option.noConfusion h
  | cons x xs =>
      rw [selMinmax] at h
      injection h with h2
      have hmem := foldl_minmaxStep_mem (x :: xs) xs (x, x) (List.mem_cons_self x xs)
        (List.mem_cons_self x xs) fun w hw => List.mem_cons_of_mem x hw
      rw [h2] at hmem
      exact hmem

/-- C7: Normalization range.  For every 8-bit input image (all channels in
0..255) and every non-`Undefined` model kind, every channel of every
normalized pixel lies within the documented range for that kind
([-0.5, 0.5] for DeepLabV3/BodyPixMobileNet, [-127, 255] for BodyPixResNet),
and therefore the debug range check `checkValuesInRange` passes. -/
theorem normalization_range (mt : ModelType) (img out : List Vec3)
    (hmt : mt ≠ ModelType.Undefined)
    (h8 : ∀ v ∈ img, (0 ≤ v.v0 ∧ v.v0 ≤ 255) ∧ (0 ≤ v.v1 ∧ v.v1 ≤ 255) ∧
      (0 ≤ v.v2 ∧ v.v2 ≤ 255))
    (hout : makeInputTensor mt img = some out) :
    (∀ w ∈ out,
      (expectedLo mt ≤ w.v0 ∧ w.v0 ≤ expectedHi mt) ∧
      (expectedLo mt ≤ w.v1 ∧ w.v1 ≤ expectedHi mt) ∧
      (expectedLo mt ≤ w.v2 ∧ w.v2 ≤ expectedHi mt)) ∧
    checkValuesInRange out (expectedLo mt) (expectedHi mt) = true := by
  have hall : ∀ w ∈ out,
      (expectedLo mt ≤ w.v0 ∧ w.v0 ≤ expectedHi mt) ∧
      (expectedLo mt ≤ w.v1 ∧ w.v1 ≤ expectedHi mt) ∧
      (expectedLo mt ≤ w.v2 ∧ w.v2 ≤ expectedHi mt) := by
    cases mt with
    | Undefined => exact absurd rfl hmt
    | DeeplabV3 =>
        rw [makeInputTensor] at hout
        injection hout with h2
        subst h2
        intro w hw
        obtain ⟨v, hv, rfl⟩ := List.mem_map.mp hw
        obtain ⟨⟨a0, b0⟩, ⟨a1, b1⟩, ⟨a2, b2⟩⟩ := h8 v hv
        simp only [convertToPixel, expectedLo, expectedHi]
        refine ⟨⟨by linarith, by linarith⟩, ⟨by linarith, by linarith⟩,
          ⟨by linarith, by linarith⟩⟩
    | BodypixMobilenet =>
        rw [makeInputTensor] at hout
        injection hout with h2
        subst h2
        intro w hw
        obtain ⟨v, hv, rfl⟩ := List.mem_map.mp hw
        obtain ⟨⟨a0, b0⟩, ⟨a1, b1⟩, ⟨a2, b2⟩⟩ := h8 v hv
        simp only [convertToPixel, expectedLo, expectedHi]
        refine ⟨⟨by linarith, by linarith⟩, ⟨by linarith, by linarith⟩,
          ⟨by linarith, by linarith⟩⟩
    | BodypixResnet =>
        rw [makeInputTensor] at hout
        injection hout with h2
        subst h2
        intro w hw
        obtain ⟨v, hv, rfl⟩ := List.mem_map.mp hw
        obtain ⟨⟨a0, b0⟩, ⟨a1, b1⟩, ⟨a2, b2⟩⟩ := h8 v hv
        simp only [resnetMeanShift, expectedLo, expectedHi]
        refine ⟨⟨by norm_num; linarith, by norm_num; linarith⟩,
          ⟨by norm_num; linarith, by norm_num; linarith⟩,
          ⟨by norm_num; linarith, by norm_num; linarith⟩⟩
  refine ⟨hall, ?_⟩
  rw [checkValuesInRange]
  split
  · rfl
  case h_2 p hp =>
    obtain ⟨mn, mx⟩ := p
    obtain ⟨hmn, hmx⟩ := selMinmax_mem out mn mx hp
    obtain ⟨⟨c0, d0⟩, ⟨c1, d1⟩, ⟨c2, d2⟩⟩ := hall mn hmn
    obtain ⟨⟨e0, f0⟩, ⟨e1, f1⟩, ⟨e2, f2⟩⟩ := hall mx hmx
    rw [Bool.and_eq_true, decide_eq_true_eq, decide_eq_true_eq]
    exact ⟨le_min c0 (le_min c1 c2), max_le f0 (max_le f1 f2)⟩

/-- Witness for C7: a single mid-gray-ish 8-bit pixel under DeepLabV3
normalization passes the debug range check. -/
theorem normalization_range_witness :
    checkValuesInRange [convertToPixel (1/255) (-(1/2)) ⟨0, 128, 255⟩]
      (expectedLo ModelType.DeeplabV3) (expectedHi ModelType.DeeplabV3) = true :=
  (normalization_range ModelType.DeeplabV3 [⟨0, 128, 255⟩]
    [convertToPixel (1/255) (-(1/2)) ⟨0, 128, 255⟩] (by decide)
    (by
      intro v hv
      simp only [List.mem_singleton] at hv
      subst hv
      norm_num)
    rfl).2

/-! ### Per-frame entry point -/

/-- C8: Size-mismatch atomicity.  When the frame and the replacement image
do not have identical dimensions, `maskBackground` fails on its very first
check (`CHECK_EQ(frame.size, maskImage.size)`) and produces no output frame:
the error is reported before any pixel of the frame is touched, regardless
of the adapter and of the external resize/inference/upscale collaborators. -/
theorem maskBackground_size_guard (a : BackgroundRemover)
    (resize : Image → Nat → Nat → List Vec3) (infer : List Vec3 → List ℚ)
    (upscale : List Nat → Nat → Nat → Nat → Nat → Nat)
    (frame maskImage : Image)
    (h : ¬(frame.width = maskImage.width ∧ frame.height = maskImage.height)) :
    maskBackground a resize infer upscale frame maskImage = Except.error () := by
  rw [maskBackground, if_neg h]

/-- Witness for C8: a 1×1 frame against a 2×1 replacement image is rejected. -/
theorem maskBackground_size_guard_witness :
    maskBackground ⟨ModelType.DeeplabV3, 16, 16, 1⟩ (fun _ _ _ => []) (fun _ => [])
      (fun _ _ _ _ _ => 0) ⟨1, 1, fun _ _ => ⟨0, 0, 0⟩⟩ ⟨2, 1, fun _ _ => ⟨0, 0, 0⟩⟩ =
      Except.error () :=
  maskBackground_size_guard ⟨ModelType.DeeplabV3, 16, 16, 1⟩ (fun _ _ _ => [])
    (fun _ => []) (fun _ _ _ _ _ => 0) ⟨1, 1, fun _ _ => ⟨0, 0, 0⟩⟩
    ⟨2, 1, fun _ _ => ⟨0, 0, 0⟩⟩ (by decide)

/-! ### Decode purity and binarity -/

/-- C9: Mask decode determinism.  The decode is a pure function of the
output buffer's contents (given a fixed adapter): two buffers that agree
element for element decode to the same mask, so two runs on the same buffer
produce bit-identical masks. -/
theorem decode_deterministic (a : BackgroundRemover) (buf1 buf2 : List ℚ)
    (hlen : buf1.length = buf2.length)
    (hext : ∀ i, buf1.getD i 0 = buf2.getD i 0) :
    getMaskFromOutput a buf1 = getMaskFromOutput a buf2 := by
  have hbuf : buf1 = buf2 := by
    refine List.ext_getElem hlen ?_
    intro i h1 h2
    have hg := hext i
    rwa [List.getD_eq_getElem buf1 0 h1, List.getD_eq_getElem buf2 0 h2] at hg
  rw [hbuf]

/-- Witness for C9: the decode of the one-element buffer `[0]` agrees with
itself. -/
theorem decode_deterministic_witness :
    getMaskFromOutput ⟨ModelType.BodypixResnet, 16, 16, 16⟩ [0] =
      getMaskFromOutput ⟨ModelType.BodypixResnet, 16, 16, 16⟩ [0] :=
  decode_deterministic ⟨ModelType.BodypixResnet, 16, 16, 16⟩ [0] [0] rfl fun _ => rfl

/-- C10: Mask binarity.  Every mask the decode produces contains only the
values 0 and 1: the mask starts as `cv::Mat::zeros` and the loop only ever
writes the value 1 into individual cells. -/
theorem mask_binary (a : BackgroundRemover) (buf : List ℚ) (mask : List Nat)
    (hm : getMaskFromOutput a buf = some mask) :
    ∀ v ∈ mask, v = 0 ∨ v = 1 := by
  rw [getMaskFromOutput] at hm
  split at hm <;> split at hm <;>
    first
      | exact Option.noConfusion hm
      | (injection hm with h2; subst h2; exact decodeFold_mem _ _)

/-- Witness for C10: the single cell decoded from an all-zero DeepLabV3
score vector (arg-max is class 0, not person) carries the value 1, which is
0 or 1. -/
theorem mask_binary_witness : (1 : Nat) = 0 ∨ (1 : Nat) = 1 :=
  mask_binary ⟨ModelType.DeeplabV3, 1, 1, 1⟩ (List.replicate 21 0) [1] (by decide) 1
    (by simp)

end BGRemover
